import Mathlib

/-!
# Verification of the Habit Scheduling & Calendar Conflict Engine

Shallow embedding of the core logic of the productivity backend
(`app/crud.py`, `app/routers/calendar.py`, `app/routers/habits.py`,
`app/routers/challenges.py`, `app/utils/challenge_scheduler.py`,
`app/utils/maintain_habit_schedules.py`).

Modelling conventions:
* The database session is a value: lists of `Task`, `CalendarEvent`,
  `Habit`, `Challenge`, `ChallengeParticipant` rows threaded through the
  operations.  Each operation returns the updated rows together with a
  result value mirroring the HTTP/CRUD outcome (errors raised in the
  source become constructors of a result type).
* `datetime` values of the calendar layer are rationals counting seconds
  since the epoch, so that the source's float arithmetic on
  `total_seconds()/60` translates exactly.  The task-timer layer uses
  naturals counting milliseconds, so that `int(elapsed.total_seconds())`
  becomes truncating division by 1000.  The rolling-maintainer layer uses
  naturals counting minutes, because every value it touches is built by
  `datetime.combine(date, time(hour, minute))`.
* SQLAlchemy queries become list filters; `.first()` becomes `head?`.
-/

namespace App

/-- Status values stored in `Task.status` ("TO_DO", "IN_PROGRESS",
"COMPLETED", "INCOMPLETE"). -/
inductive TaskStatus
  | TO_DO
  | IN_PROGRESS
  | COMPLETED
  | INCOMPLETE
deriving DecidableEq, Repr

/-- Row of the `tasks` table (`app/models.py`), restricted to the columns the
timer state machine and the calendar read or write.  `due_date`,
`start_time` and `last_run_date` are datetimes modelled as milliseconds
since the epoch. -/
structure Task where
  id : Nat
  owner_id : Nat
  title : String := ""
  status : TaskStatus
  due_date : Nat
  completed : Bool
  estimated_hours : Option ℚ := some 1
  is_active : Bool
  start_time : Option Nat := none
  remaining_time_seconds : Int
  time_spent_seconds : Int
  initial_duration_seconds : Int
  last_run_date : Option Nat := none
deriving DecidableEq, Repr

/-- `event_type` column of `calendar_events` ('task' or 'habit'). -/
inductive EventType
  | task
  | habit
deriving DecidableEq, Repr

/-- Row of the `calendar_events` table (`app/models.py`).  `start_time` and
`end_time` are datetimes modelled as rational seconds since the epoch. -/
structure CalendarEvent where
  id : Nat
  user_id : Nat
  task_id : Option Nat := none
  habit_id : Option Nat := none
  event_type : EventType := .task
  start_time : ℚ
  end_time : ℚ
deriving DecidableEq, Repr

/-- `frequency` column of `habits` ('daily', 'weekly', 'monthly'). -/
inductive Frequency
  | daily
  | weekly
  | monthly
deriving DecidableEq, Repr

/-- Entry of `Habit.daily_times`: `{hour, minute}`. -/
structure TimeSlot where
  hour : Nat
  minute : Nat
deriving DecidableEq, Repr

/-- Entry of `Habit.weekly_times`: `{day, hour, minute}` with `day ∈ [0,6]`. -/
structure WeeklyTimeSlot where
  day : Nat
  hour : Nat
  minute : Nat
deriving DecidableEq, Repr

/-- Entry of `Habit.monthly_times`: `{day, hour, minute}` with `day ∈ [1,31]`. -/
structure MonthlyTimeSlot where
  day : Nat
  hour : Nat
  minute : Nat
deriving DecidableEq, Repr

/-- Row of the `habits` table (`app/models/habit.py`), restricted to the
columns the scheduling engine reads.  The three time-slot JSON columns are
lists (`None` in the source behaves like the empty list under every
`if not habit.xxx_times` check).  `start_date`/`end_date` are dates
modelled as day numbers counted from 1970-01-01. -/
structure Habit where
  id : Nat
  user_id : Nat
  name : String := ""
  is_permanent : Bool
  frequency : Frequency
  duration_minutes : Nat
  daily_times : List TimeSlot := []
  weekly_times : List WeeklyTimeSlot := []
  monthly_times : List MonthlyTimeSlot := []
  start_date : Nat := 0
  end_date : Nat := 0
  is_active : Bool := true
deriving DecidableEq, Repr

/-! ## Task timer state machine (`app/crud.py`) -/

/-- Milliseconds per day; `func.date(dt)` on a millisecond timestamp is
division by this constant. -/
def msPerDay : Nat := 86400000

/-- `crud.get_active_task`: first task of the user with `completed == False`
and `func.date(due_date) == today` (note: the query does NOT look at
`is_active`). -/
def get_active_task (db : List Task) (user_id : Nat) (now : Nat) : Option Task :=
  (db.filter fun t =>
    t.owner_id == user_id && t.completed == false && t.due_date / msPerDay == now / msPerDay).head?

/-- Result of `crud.start_task_timer`: `None` when the task is not found,
the `{"error": ...}` dictionaries for the two rejections, or the updated
task. -/
inductive StartResult
  | notFound
  | anotherTaskRunning
  | completedTask
  | started (t : Task)
deriving DecidableEq, Repr

/-- Replace the row matched by id and owner (the ORM mutates the fetched
row in place). -/
def replaceTask (db : List Task) (t' : Task) : List Task :=
  db.map fun t => if t.id == t'.id && t.owner_id == t'.owner_id then t' else t

/-- `crud.start_task_timer`. -/
def start_task_timer (db : List Task) (task_id user_id : Nat) (now : Nat) :
    List Task × StartResult :=
  match (db.filter fun t => t.id == task_id && t.owner_id == user_id).head? with
  | none => (db, .notFound)
  | some task =>
    let active_task := get_active_task db user_id now
    if (match active_task with | some a => a.id != task_id | none => false) then
      (db, .anotherTaskRunning)
    else if task.status == .COMPLETED then
      (db, .completedTask)
    else
      let new_remaining_time : Int :=
        if task.status == .INCOMPLETE then 3600
        else if task.status == .TO_DO || decide (task.remaining_time_seconds ≤ 0) then
          task.initial_duration_seconds
        else task.remaining_time_seconds
      let task' := { task with
        is_active := true
        start_time := some now
        status := .IN_PROGRESS
        remaining_time_seconds := new_remaining_time
        last_run_date := some now }
      (replaceTask db task', .started task')

/-- `crud.stop_task_timer`.  `elapsed_time = (now - start_time).total_seconds()`
and `int(elapsed_time)` becomes truncating division of the millisecond
difference by 1000 (the wall clock is assumed monotone, so the difference is
non-negative). -/
def stop_task_timer (db : List Task) (task_id user_id : Nat) (now : Nat) :
    List Task × Option Task :=
  match (db.filter fun t => t.id == task_id && t.owner_id == user_id).head? with
  | none => (db, none)
  | some task =>
    if !task.is_active then (db, none)
    else
      match task.start_time with
      | none => (db, none)
      | some st =>
        let elapsed : Nat := (now - st) / 1000
        let task' := { task with
          time_spent_seconds := task.time_spent_seconds + (elapsed : Int)
          remaining_time_seconds := max 0 (task.remaining_time_seconds - (elapsed : Int))
          is_active := false
          start_time := none }
        (replaceTask db task', some task')

/-- `crud.end_of_day_cleanup`: every task with status in
{TO_DO, IN_PROGRESS} and `is_active == False` is forced to INCOMPLETE.
The source's inner `if task.is_active: stop_task_timer(...)` branch is
unreachable (the query filter already requires `is_active == False`), so it
adds nothing to the model. -/
def end_of_day_cleanup (db : List Task) : List Task :=
  db.map fun t =>
    if (t.status == .TO_DO || t.status == .IN_PROGRESS) && t.is_active == false then
      { t with status := .INCOMPLETE }
    else t

/-! ## Calendar conflict validation (`app/routers/calendar.py`) -/

/-- Errors raised by `validate_schedule_time`: the schedule-in-the-past
`ValueError` or the conflict `ValueError` (which carries the colliding
events used to build the detail string). -/
inductive ScheduleError
  | pastError
  | conflictError (conflicts : List CalendarEvent)
deriving DecidableEq, Repr

/-- The `or_` of the three `and_` overlap shapes of the conflict query in
`validate_schedule_time` / `check_habit_conflicts`:
new starts during existing, new ends during existing, new contains
existing. -/
def overlapsQuery (e : CalendarEvent) (start_time end_time : ℚ) : Bool :=
  (decide (e.start_time ≤ start_time) && decide (e.end_time > start_time)) ||
  (decide (e.start_time < end_time) && decide (e.end_time ≥ end_time)) ||
  (decide (e.start_time ≥ start_time) && decide (e.end_time ≤ end_time))

/-- `calendar.validate_schedule_time`.  Returns `.error .pastError` for a
start time before `now`, skips the conflict check entirely for durations in
[1,10] minutes, and otherwise reports the user's overlapping events whose
own duration exceeds 10 minutes (minus the excluded event id, if any;
Python's `if exclude_event_id:` is falsy for id 0). -/
def validate_schedule_time (user_id : Nat) (start_time end_time : ℚ)
    (db : List CalendarEvent) (exclude_event_id : Option Nat) (now : ℚ) :
    Except ScheduleError Unit :=
  if start_time < now then .error .pastError
  else
    let duration_minutes : ℚ := (end_time - start_time) / 60
    if 1 ≤ duration_minutes ∧ duration_minutes ≤ 10 then .ok ()
    else
      let conflicts : List CalendarEvent := db.filter fun e =>
        e.user_id == user_id && overlapsQuery e start_time end_time
      let conflicts : List CalendarEvent := match exclude_event_id with
        | some eid => if eid ≠ 0 then conflicts.filter (fun e => e.id != eid) else conflicts
        | none => conflicts
      let conflicts : List CalendarEvent := conflicts.filter fun e =>
        decide ((e.end_time - e.start_time) / 60 > 10)
      if conflicts.isEmpty then .ok () else .error (.conflictError conflicts)

/-- Outcome of `calendar.schedule_task`. -/
inductive ScheduleOutcome
  | notFound
  | alreadyScheduled
  | validationError (e : ScheduleError)
  | created (ev : CalendarEvent)
deriving DecidableEq, Repr

/-- `calendar.schedule_task` (POST /calendar/schedule/{task_id}). -/
def schedule_task (tasks : List Task) (events : List CalendarEvent)
    (task_id : Nat) (start_time : ℚ) (current_user : Nat) (now : ℚ)
    (new_event_id : Nat) : List CalendarEvent × ScheduleOutcome :=
  match (tasks.filter fun t => t.id == task_id && t.owner_id == current_user).head? with
  | none => (events, .notFound)
  | some task =>
    match (events.filter fun e => e.task_id == some task_id).head? with
    | some _ => (events, .alreadyScheduled)
    | none =>
      let duration_hours : ℚ := match task.estimated_hours with
        | some h => if h = 0 then 1 else h
        | none => 1
      let end_time := start_time + duration_hours * 3600
      match validate_schedule_time current_user start_time end_time events none now with
      | .error e => (events, .validationError e)
      | .ok _ =>
        let ev : CalendarEvent := { id := new_event_id
                                    user_id := current_user
                                    task_id := some task_id
                                    habit_id := none
                                    event_type := .task
                                    start_time := start_time
                                    end_time := end_time }
        (events ++ [ev], .created ev)

/-- Outcome of `calendar.update_calendar_event`. -/
inductive UpdateOutcome
  | notFound
  | validationError (e : ScheduleError)
  | updated (ev : CalendarEvent)
deriving DecidableEq, Repr

/-- `calendar.update_calendar_event` (PATCH /calendar/events/{event_id}). -/
def update_calendar_event (events : List CalendarEvent) (tasks : List Task)
    (habits : List Habit) (event_id : Nat) (start_time : ℚ)
    (current_user : Nat) (now : ℚ) : List CalendarEvent × UpdateOutcome :=
  match (events.filter fun e => e.id == event_id && e.user_id == current_user).head? with
  | none => (events, .notFound)
  | some event =>
    let eventHabit : Option Habit := match event.habit_id with
      | some hid => (habits.filter fun h => h.id == hid).head?
      | none => none
    let eventTask : Option Task := match event.task_id with
      | some tid => (tasks.filter fun t => t.id == tid).head?
      | none => none
    let duration_minutes : ℚ :=
      match event.event_type, eventHabit, eventTask with
      | .habit, some h, _ => (h.duration_minutes : ℚ)
      | .task, _, some t =>
        (match t.estimated_hours with
          | some x => if x = 0 then 1 else x
          | none => 1) * 60
      | _, _, _ => (event.end_time - event.start_time) / 60
    let end_time := start_time + duration_minutes * 60
    match validate_schedule_time current_user start_time end_time events (some event_id) now with
    | .error e => (events, .validationError e)
    | .ok _ =>
      let event' := { event with start_time := start_time, end_time := end_time }
      (events.map (fun e => if e.id == event_id && e.user_id == current_user then event' else e),
        .updated event')

/-! ## Habit conflict check and recurrence materialization
(`app/routers/habits.py`) -/

/-- `habits.check_habit_conflicts`: the same duration exemption, overlap
query and short-event filter as `validate_schedule_time` (without the
past-time check and without an exclusion id).  `some conflicts` models the
raised `ValueError` carrying the conflicting events. -/
def check_habit_conflicts (user_id : Nat) (start_time end_time : ℚ)
    (db : List CalendarEvent) : Option (List CalendarEvent) :=
  let duration_minutes : ℚ := (end_time - start_time) / 60
  if 1 ≤ duration_minutes ∧ duration_minutes ≤ 10 then none
  else
    let conflicts : List CalendarEvent := db.filter fun e =>
      e.user_id == user_id && overlapsQuery e start_time end_time
    let conflicts : List CalendarEvent := conflicts.filter fun e =>
      decide ((e.end_time - e.start_time) / 60 > 10)
    if conflicts.isEmpty then none else some conflicts

/-- Python `date.weekday()` (Monday = 0) of a day number; day 0
(1970-01-01) was a Thursday. -/
def pyWeekday (d : Nat) : Nat := (d + 3) % 7

/-- Day-of-month of a day number, by the standard civil-from-days
conversion (proleptic Gregorian calendar). -/
def civilDayOfMonth (z : Nat) : Nat :=
  let z' := z + 719468
  let doe := z' % 146097
  let yoe := (doe - doe / 1460 + doe / 36524 - doe / 146096) / 365
  let doy := doe - (365 * yoe + yoe / 4 - yoe / 100)
  let mp := (5 * doy + 2) / 153
  doy - (153 * mp + 2) / 5 + 1

/-- The weekly-slot day test
`current_date.weekday() == (time_slot['day'] - 1) % 7`; Python's `%` on a
negative operand matches `Int.emod` for a positive modulus. -/
def weeklyMatches (d : Nat) (slot : WeeklyTimeSlot) : Bool :=
  (pyWeekday d : Int) == ((slot.day : Int) - 1) % 7

/-- `datetime.combine(date, time(hour, minute))` as rational seconds. -/
def combineSec (d hour minute : Nat) : ℚ := ((d * 1440 + hour * 60 + minute : Nat) : ℚ) * 60

/-- The `ValueError(f"تعارض في {current_date}: ...")` raised during
materialization: the date tag and the conflicts reported by
`check_habit_conflicts`. -/
structure ConflictTag where
  date : Nat
  conflicts : List CalendarEvent
deriving DecidableEq, Repr

/-- One day's slot loop of `_generate_daily_events`: check each occurrence
against the accumulated events (the session's autoflush makes earlier
pending inserts visible to the conflict query) and append its event.
Generated rows are written with autoincrement ids irrelevant to this
development, modelled as 0. -/
def _generate_daily_slots (habit : Habit) (user_id d : Nat) :
    List TimeSlot → List CalendarEvent → Except ConflictTag (List CalendarEvent)
  | [], db => .ok db
  | slot :: rest, db =>
    let start_time := combineSec d slot.hour slot.minute
    let end_time := start_time + (habit.duration_minutes : ℚ) * 60
    match check_habit_conflicts user_id start_time end_time db with
    | some conflicts => .error ⟨d, conflicts⟩
    | none =>
      let event : CalendarEvent := { id := 0
                                     user_id := user_id
                                     habit_id := some habit.id
                                     event_type := .habit
                                     start_time := start_time
                                     end_time := end_time }
      _generate_daily_slots habit user_id d rest (db ++ [event])

/-- Day loop of `_generate_daily_events` (`while current_date <= end`),
with the number of remaining days as fuel. -/
def _generate_daily_loop (habit : Habit) (user_id : Nat) :
    Nat → Nat → List CalendarEvent → Except ConflictTag (List CalendarEvent)
  | _, 0, db => .ok db
  | d, n + 1, db =>
    match _generate_daily_slots habit user_id d habit.daily_times db with
    | .error e => .error e
    | .ok db' => _generate_daily_loop habit user_id (d + 1) n db'

/-- `habits._generate_daily_events`. -/
def _generate_daily_events (habit : Habit) (db : List CalendarEvent)
    (user_id today : Nat) : Except ConflictTag (List CalendarEvent) :=
  if habit.daily_times.isEmpty then .ok db
  else
    let start := if habit.is_permanent then today else habit.start_date
    let «end» := if habit.is_permanent then today + 90 else habit.end_date
    _generate_daily_loop habit user_id start («end» + 1 - start) db

/-- One day's slot loop of `_generate_weekly_events` (slots whose `day`
field misses the date's weekday are skipped with `continue`). -/
def _generate_weekly_slots (habit : Habit) (user_id d : Nat) :
    List WeeklyTimeSlot → List CalendarEvent → Except ConflictTag (List CalendarEvent)
  | [], db => .ok db
  | slot :: rest, db =>
    if !weeklyMatches d slot then _generate_weekly_slots habit user_id d rest db
    else
      let start_time := combineSec d slot.hour slot.minute
      let end_time := start_time + (habit.duration_minutes : ℚ) * 60
      match check_habit_conflicts user_id start_time end_time db with
      | some conflicts => .error ⟨d, conflicts⟩
      | none =>
        let event : CalendarEvent := { id := 0
                                       user_id := user_id
                                       habit_id := some habit.id
                                       event_type := .habit
                                       start_time := start_time
                                       end_time := end_time }
        _generate_weekly_slots habit user_id d rest (db ++ [event])

/-- Day loop of `_generate_weekly_events`. -/
def _generate_weekly_loop (habit : Habit) (user_id : Nat) :
    Nat → Nat → List CalendarEvent → Except ConflictTag (List CalendarEvent)
  | _, 0, db => .ok db
  | d, n + 1, db =>
    match _generate_weekly_slots habit user_id d habit.weekly_times db with
    | .error e => .error e
    | .ok db' => _generate_weekly_loop habit user_id (d + 1) n db'

/-- `habits._generate_weekly_events`. -/
def _generate_weekly_events (habit : Habit) (db : List CalendarEvent)
    (user_id today : Nat) : Except ConflictTag (List CalendarEvent) :=
  if habit.weekly_times.isEmpty then .ok db
  else
    let start := if habit.is_permanent then today else habit.start_date
    let «end» := if habit.is_permanent then today + 365 else habit.end_date
    _generate_weekly_loop habit user_id start («end» + 1 - start) db

/-- One day's slot loop of `_generate_monthly_events` (slots whose `day`
field differs from the date's day-of-month are skipped). -/
def _generate_monthly_slots (habit : Habit) (user_id d : Nat) :
    List MonthlyTimeSlot → List CalendarEvent → Except ConflictTag (List CalendarEvent)
  | [], db => .ok db
  | slot :: rest, db =>
    if civilDayOfMonth d != slot.day then _generate_monthly_slots habit user_id d rest db
    else
      let start_time := combineSec d slot.hour slot.minute
      let end_time := start_time + (habit.duration_minutes : ℚ) * 60
      match check_habit_conflicts user_id start_time end_time db with
      | some conflicts => .error ⟨d, conflicts⟩
      | none =>
        let event : CalendarEvent := { id := 0
                                       user_id := user_id
                                       habit_id := some habit.id
                                       event_type := .habit
                                       start_time := start_time
                                       end_time := end_time }
        _generate_monthly_slots habit user_id d rest (db ++ [event])

/-- Day loop of `_generate_monthly_events`. -/
def _generate_monthly_loop (habit : Habit) (user_id : Nat) :
    Nat → Nat → List CalendarEvent → Except ConflictTag (List CalendarEvent)
  | _, 0, db => .ok db
  | d, n + 1, db =>
    match _generate_monthly_slots habit user_id d habit.monthly_times db with
    | .error e => .error e
    | .ok db' => _generate_monthly_loop habit user_id (d + 1) n db'

/-- `habits._generate_monthly_events`. -/
def _generate_monthly_events (habit : Habit) (db : List CalendarEvent)
    (user_id today : Nat) : Except ConflictTag (List CalendarEvent) :=
  if habit.monthly_times.isEmpty then .ok db
  else
    let start := if habit.is_permanent then today else habit.start_date
    let «end» := if habit.is_permanent then today + 1095 else habit.end_date
    _generate_monthly_loop habit user_id start («end» + 1 - start) db

/-- `habits.generate_habit_events`. -/
def generate_habit_events (habit : Habit) (db : List CalendarEvent)
    (user_id today : Nat) : Except ConflictTag (List CalendarEvent) :=
  match habit.frequency with
  | .daily => _generate_daily_events habit db user_id today
  | .weekly => _generate_weekly_events habit db user_id today
  | .monthly => _generate_monthly_events habit db user_id today

/-- An occurrence of the habit beginning at second `s` of day `d`, as the
recurrence rules of `generate_habit_events` produce them: one per daily
slot, one per weekly slot whose day field matches the date's weekday, one
per monthly slot whose day field equals the day-of-month. -/
def occurrenceAt (habit : Habit) (d : Nat) (s : ℚ) : Prop :=
  match habit.frequency with
  | .daily => ∃ slot ∈ habit.daily_times, s = combineSec d slot.hour slot.minute
  | .weekly => ∃ slot ∈ habit.weekly_times,
      weeklyMatches d slot = true ∧ s = combineSec d slot.hour slot.minute
  | .monthly => ∃ slot ∈ habit.monthly_times,
      civilDayOfMonth d = slot.day ∧ s = combineSec d slot.hour slot.minute

/-- The `HabitCreate` request body (dates as day numbers). -/
structure HabitCreate where
  name : String
  is_permanent : Bool
  frequency : Frequency
  duration_minutes : Nat
  daily_times : List TimeSlot := []
  weekly_times : List WeeklyTimeSlot := []
  monthly_times : List MonthlyTimeSlot := []
  start_date : Option Nat := none
  end_date : Option Nat := none
deriving DecidableEq, Repr

/-- `ValueError`s of `habits.validate_habit_data`. -/
inductive HabitValidationError
  | missingTimes
  | missingDates
  | badDateOrder
deriving DecidableEq, Repr

/-- `habits.validate_habit_data`. -/
def validate_habit_data (habit_data : HabitCreate) : Except HabitValidationError Unit :=
  if (match habit_data.frequency with
      | .daily => habit_data.daily_times.isEmpty
      | .weekly => habit_data.weekly_times.isEmpty
      | .monthly => habit_data.monthly_times.isEmpty) then .error .missingTimes
  else if !habit_data.is_permanent &&
      (habit_data.start_date.isNone || habit_data.end_date.isNone) then .error .missingDates
  else if !habit_data.is_permanent &&
      decide (habit_data.end_date.getD 0 ≤ habit_data.start_date.getD 0) then .error .badDateOrder
  else .ok ()

/-- Failures of `habits.create_habit` (HTTP 400 responses). -/
inductive CreateHabitError
  | duplicateName
  | validation (e : HabitValidationError)
  | conflict (e : ConflictTag)
deriving DecidableEq, Repr

/-- The Habit row built from a `HabitCreate` payload in `create_habit`. -/
def habitOfCreate (habit_data : HabitCreate) (current_user new_habit_id : Nat) : Habit :=
  { id := new_habit_id
    user_id := current_user
    name := habit_data.name
    is_permanent := habit_data.is_permanent
    frequency := habit_data.frequency
    duration_minutes := habit_data.duration_minutes
    daily_times := habit_data.daily_times
    weekly_times := habit_data.weekly_times
    monthly_times := habit_data.monthly_times
    start_date := habit_data.start_date.getD 0
    end_date := habit_data.end_date.getD 0 }

/-- `habits.create_habit`: duplicate-name check, payload validation, commit
of the Habit row, then event generation.  On a conflict `ValueError` during
generation the handler deletes the just-committed Habit row again; its
`calendar_events` relationship cascade (`all, delete-orphan`) removes the
expansion's pending rows with it, so the stored state reverts to the
original. -/
def create_habit (habit_data : HabitCreate) (habits : List Habit)
    (db : List CalendarEvent) (current_user today new_habit_id : Nat) :
    Except CreateHabitError Habit × List Habit × List CalendarEvent :=
  if ((habits.filter fun h =>
        h.user_id == current_user && h.name == habit_data.name && h.is_active).head?).isSome then
    (.error .duplicateName, habits, db)
  else
    match validate_habit_data habit_data with
    | .error e => (.error (.validation e), habits, db)
    | .ok _ =>
      let habit : Habit := habitOfCreate habit_data current_user new_habit_id
      match generate_habit_events habit db current_user today with
      | .error e => (.error (.conflict e), habits, db)
      | .ok db' => (.ok habit, habits ++ [habit], db')

/-! ## Rolling schedule maintainer (`app/utils/maintain_habit_schedules.py`)

Every datetime this job reads or writes is produced by
`datetime.combine(date, time(hour, minute))`, so its times are modelled as
whole minutes since the epoch. -/

namespace Maintain

/-- Row of `calendar_events` as the maintainer sees it (`start_time` in
whole minutes since the epoch). -/
structure CalendarEvent where
  habit_id : Nat
  user_id : Nat
  start_time : Nat
  end_time : Nat
deriving DecidableEq, Repr

/-- `get_schedule_period`. -/
def get_schedule_period : Frequency → Nat
  | .daily => 90
  | .weekly => 365
  | .monthly => 1095

/-- `datetime.combine(current_date, time(hour, minute))` in minutes. -/
def combineMin (d hour minute : Nat) : Nat := d * 1440 + hour * 60 + minute

/-- The duplicate-avoidance query: an event of this habit at exactly this
`start_time` already exists. -/
def existsEvent (db : List CalendarEvent) (hid st : Nat) : Bool :=
  db.any fun e => e.habit_id == hid && e.start_time == st

/-- The shared per-day loop body of `_add_daily_events`,
`_add_weekly_events` and `_add_monthly_events`: insert an event at each
given start minute unless one already exists, returning the grown list and
the number added. -/
def addStarts (habit : Habit) : List Nat → List CalendarEvent → List CalendarEvent × Nat
  | [], db => (db, 0)
  | st :: rest, db =>
    if existsEvent db habit.id st then addStarts habit rest db
    else
      let event : CalendarEvent := { habit_id := habit.id
                                     user_id := habit.user_id
                                     start_time := st
                                     end_time := st + habit.duration_minutes }
      let r := addStarts habit rest (db ++ [event])
      (r.1, r.2 + 1)

/-- `_add_daily_events`. -/
def _add_daily_events (habit : Habit) (d : Nat) (db : List CalendarEvent) :
    List CalendarEvent × Nat :=
  addStarts habit (habit.daily_times.map fun s => combineMin d s.hour s.minute) db

/-- `_add_weekly_events`. -/
def _add_weekly_events (habit : Habit) (d : Nat) (db : List CalendarEvent) :
    List CalendarEvent × Nat :=
  addStarts habit
    ((habit.weekly_times.filter fun s => weeklyMatches d s).map
      fun s => combineMin d s.hour s.minute) db

/-- `_add_monthly_events`. -/
def _add_monthly_events (habit : Habit) (d : Nat) (db : List CalendarEvent) :
    List CalendarEvent × Nat :=
  addStarts habit
    ((habit.monthly_times.filter fun s => civilDayOfMonth d == s.day).map
      fun s => combineMin d s.hour s.minute) db

/-- The start minutes the walk materializes on one date — the three
`_add_*_events` bodies differ only in this list. -/
def dayStarts (habit : Habit) (d : Nat) : List Nat :=
  match habit.frequency with
  | .daily => habit.daily_times.map fun s => combineMin d s.hour s.minute
  | .weekly => (habit.weekly_times.filter fun s => weeklyMatches d s).map
      fun s => combineMin d s.hour s.minute
  | .monthly => (habit.monthly_times.filter fun s => civilDayOfMonth d == s.day).map
      fun s => combineMin d s.hour s.minute

/-- Day `d` is fully materialized for the habit: every slot start of that
day already has an event of the habit at exactly that start minute. -/
def Covered (habit : Habit) (db : List CalendarEvent) (d : Nat) : Prop :=
  ∀ st ∈ dayStarts habit d, ∃ e ∈ db, e.habit_id = habit.id ∧ e.start_time = st

/-- Day walk of `_extend_habit_schedule`
(`while current_date <= target_end_date`), remaining days as fuel. -/
def walkDays (habit : Habit) : Nat → Nat → List CalendarEvent → List CalendarEvent × Nat
  | _, 0, db => (db, 0)
  | d, n + 1, db =>
    let r := match habit.frequency with
      | .daily => _add_daily_events habit d db
      | .weekly => _add_weekly_events habit d db
      | .monthly => _add_monthly_events habit d db
    let r' := walkDays habit (d + 1) n r.1
    (r'.1, r.2 + r'.2)

/-- The start minutes of the habit's stored events. -/
def habitStarts (habit : Habit) (db : List CalendarEvent) : List Nat :=
  (db.filter fun e => e.habit_id == habit.id).map fun e => e.start_time

/-- `start_time` of the habit's latest event
(`order_by(start_time.desc()).first()`). -/
def lastStart? (habit : Habit) (db : List CalendarEvent) : Option Nat :=
  match habitStarts habit db with
  | [] => none
  | x :: xs => some (xs.foldl max x)

def minutesPerDay : Nat := 1440

/-- Invariant making `_extend_habit_schedule` a no-op: the habit has no
events at all, or its latest event already reaches the horizon, or every
day between the latest event's date and the horizon is fully
materialized. -/
def Ready (habit : Habit) (db : List CalendarEvent) (today : Nat) : Prop :=
  lastStart? habit db = none ∨
  ∃ m, lastStart? habit db = some m ∧
    (today + get_schedule_period habit.frequency ≤ m / minutesPerDay ∨
     ∀ d, m / minutesPerDay < d → d ≤ today + get_schedule_period habit.frequency →
       Covered habit db d)

/-- `_extend_habit_schedule`: skip a habit with no events, skip when the
latest event already reaches the horizon, otherwise walk day by day from
the day after the latest event to the horizon. -/
def _extend_habit_schedule (habit : Habit) (db : List CalendarEvent) (today : Nat) :
    List CalendarEvent × Nat :=
  let target_end_date := today + get_schedule_period habit.frequency
  match lastStart? habit db with
  | none => (db, 0)
  | some last =>
    let last_event_date := last / minutesPerDay
    if target_end_date ≤ last_event_date then (db, 0)
    else walkDays habit (last_event_date + 1) (target_end_date - last_event_date) db

/-- `maintain_habit_schedules`: extend every active permanent habit in
turn, accumulating the number of added events. -/
def maintain_habit_schedules (habits : List Habit) (db : List CalendarEvent) (today : Nat) :
    List CalendarEvent × Nat :=
  (habits.filter fun h => h.is_permanent && h.is_active).foldl
    (fun acc h =>
      let r := _extend_habit_schedule h acc.1 today
      (r.1, acc.2 + r.2))
    (db, 0)

end Maintain

/-! ## Challenge lifecycle (`app/routers/challenges.py`,
`app/utils/challenge_scheduler.py`)

Challenge datetimes are modelled as integer seconds since the epoch. -/

/-- `ChallengeParticipant.status` values. -/
inductive ParticipantStatus
  | invited
  | accepted
  | rejected
  | completed
deriving DecidableEq, Repr

/-- Row of `challenge_participants` (`app/models/challenges.py`). -/
structure ChallengeParticipant where
  id : Nat
  challenge_id : Nat
  user_id : Nat
  status : ParticipantStatus
  start_time : Option Int := none
  end_time : Option Int := none
  time_taken_seconds : Option Int := none
  score : Option ℚ := none
  rank : Option Nat := none
deriving DecidableEq, Repr

/-- Row of `quizzes`, restricted to the column the expiry sweep reads.
(Questions and options only matter to scoring, outside these claims.) -/
structure Quiz where
  duration_minutes : Int
deriving DecidableEq, Repr

/-- Row of `challenges` with its optional owned quiz. -/
structure Challenge where
  id : Nat
  creator_id : Nat
  name : String := ""
  duration_minutes : Int
  is_quiz : Bool
  lifespan_hours : Int
  expires_at : Int
  quiz : Option Quiz := none
deriving DecidableEq, Repr

/-- `quiz_data` of the create request. -/
structure QuizCreate where
  duration_minutes : Int
deriving DecidableEq, Repr

/-- The `ChallengeCreate` request body. -/
structure ChallengeCreate where
  name : String
  duration_minutes : Int
  is_quiz : Bool
  lifespan_hours : Int
  invited_friend_ids : List Nat
  quiz_data : Option QuizCreate := none
deriving DecidableEq, Repr

/-- `challenges.create_challenge`: validates quiz-data presence, computes
`expires_at`, persists the challenge and optional quiz, inserts one
`invited` participant per invited friend id, and then — unconditionally —
the creator as an `accepted` participant.  `.error ()` is the HTTP 400
"Quiz data required".  (Autoincrement participant ids are irrelevant here
and modelled as 0.) -/
def create_challenge (challenge_data : ChallengeCreate) (current_user : Nat)
    (now : Int) (new_challenge_id : Nat) :
    Except Unit (Challenge × List ChallengeParticipant) :=
  if challenge_data.is_quiz && challenge_data.quiz_data.isNone then .error ()
  else
    let expires_at := now + challenge_data.lifespan_hours * 3600
    let challenge : Challenge :=
      { id := new_challenge_id
        creator_id := current_user
        name := challenge_data.name
        duration_minutes := challenge_data.duration_minutes
        is_quiz := challenge_data.is_quiz
        lifespan_hours := challenge_data.lifespan_hours
        expires_at := expires_at
        quiz := if challenge_data.is_quiz then
            challenge_data.quiz_data.map (fun q => { duration_minutes := q.duration_minutes })
          else none }
    let invited : List ChallengeParticipant := challenge_data.invited_friend_ids.map fun fid =>
      { id := 0
        challenge_id := new_challenge_id
        user_id := fid
        status := .invited }
    let creator_participant : ChallengeParticipant :=
      { id := 0
        challenge_id := new_challenge_id
        user_id := current_user
        status := .accepted }
    .ok (challenge, invited ++ [creator_participant])

/-- The per-participant time budget of the expiry sweep:
`challenge.duration_minutes * 60`, plus `quiz.duration_minutes * 60` when
the challenge is a quiz and owns a quiz row. -/
def max_duration (challenge : Challenge) : Int :=
  challenge.duration_minutes * 60 +
    (if challenge.is_quiz then
       (match challenge.quiz with
        | some quiz => quiz.duration_minutes * 60
        | none => 0)
     else 0)

/-- The expiry sweep's per-participant examination
(`process_expired_challenges`, inner loop): an accepted participant with a
start but no end is force-finished when past `max_duration + 300` seconds
(5-minute grace buffer), and otherwise blocks settlement
(`all_finished = False`).  Returns the possibly updated participant and
whether it leaves the challenge settleable. -/
def sweepParticipant (challenge : Challenge) (now : Int) (p : ChallengeParticipant) :
    ChallengeParticipant × Bool :=
  if p.status == .accepted then
    match p.start_time, p.end_time with
    | some st, none =>
      let time_elapsed := now - st
      if time_elapsed > max_duration challenge + 300 then
        ({ p with end_time := some now
                  time_taken_seconds := some time_elapsed
                  status := .completed }, true)
      else (p, false)
    | _, _ => (p, true)
  else (p, true)

/-- Python `p.score or 0` (a 0.0 score is falsy too). -/
def scoreKey (p : ChallengeParticipant) : ℚ :=
  match p.score with
  | some s => if s = 0 then 0 else s
  | none => 0

/-- Python `p.time_taken_seconds or 999999` (a 0 value is falsy too). -/
def timeKey (p : ChallengeParticipant) : Int :=
  match p.time_taken_seconds with
  | some t => if t = 0 then 999999 else t
  | none => 999999

/-- Ordering used by the expiry sweep's `sorted`: quizzes by
`(-score, time)` lexicographically, plain challenges by time ascending. -/
def sortKeyLe (challenge : Challenge) (p q : ChallengeParticipant) : Bool :=
  if challenge.is_quiz then
    if -scoreKey p = -scoreKey q then decide (timeKey p ≤ timeKey q)
    else decide (-scoreKey p ≤ -scoreKey q)
  else decide (timeKey p ≤ timeKey q)

/-- What settling one expired challenge does before its hard delete: the
cup awards (silver/bronze only with a pool of ≥ 10) and the participants
whose `challenges_count` is incremented. -/
structure SettleRecord where
  challenge_id : Nat
  gold : Option Nat := none
  silver : Option Nat := none
  bronze : Option Nat := none
  completed_user_ids : List Nat := []
deriving DecidableEq, Repr

/-- One expired challenge's pass of `process_expired_challenges`: examine
every participant; if anyone accepted-and-started is still inside the
grace window (`all_finished = False`) return the updated participants and
no settlement; otherwise rank the completed participants, award cups and
produce the settlement record (the challenge row is then hard-deleted). -/
def process_challenge (challenge : Challenge) (participants : List ChallengeParticipant)
    (now : Int) : List ChallengeParticipant × Option SettleRecord :=
  let stepped := participants.map (sweepParticipant challenge now)
  let updated := stepped.map Prod.fst
  let all_finished := stepped.all Prod.snd
  let active_participants := updated.filter fun p => p.status == .completed
  if !all_finished then (updated, none)
  else
    let sorted_participants := active_participants.mergeSort (sortKeyLe challenge)
    let gold := sorted_participants.head?.map (fun p => p.user_id)
    let silver := if 10 ≤ sorted_participants.length && 1 < sorted_participants.length then
        ((sorted_participants.drop 1).head?).map (fun p => p.user_id)
      else none
    let bronze := if 10 ≤ sorted_participants.length && 2 < sorted_participants.length then
        ((sorted_participants.drop 2).head?).map (fun p => p.user_id)
      else none
    (updated, some { challenge_id := challenge.id
                     gold := gold
                     silver := silver
                     bronze := bronze
                     completed_user_ids := active_participants.map (fun p => p.user_id) })

/-- `challenge_scheduler.process_expired_challenges` over the stored
challenges: each challenge past `expires_at` is examined; a settled one is
deleted from the store (its record collected), a deferred one is kept with
its updated participants, an unexpired one is untouched. -/
def process_expired_challenges
    (store : List (Challenge × List ChallengeParticipant)) (now : Int) :
    List (Challenge × List ChallengeParticipant) × List SettleRecord :=
  store.foldr
    (fun cp acc =>
      if decide (cp.1.expires_at ≤ now) then
        match process_challenge cp.1 cp.2 now with
        | (updated, none) => ((cp.1, updated) :: acc.1, acc.2)
        | (_, some record) => (acc.1, record :: acc.2)
      else (cp :: acc.1, acc.2))
    ([], [])

/-! ## Fixtures for concrete evaluations -/

/-- Fixture: an inactive TO_DO task of user 7 due on day 0, first row. -/
def c1TaskA : Task :=
  { id := 1
    owner_id := 7
    status := .TO_DO
    due_date := 0
    completed := false
    is_active := false
    remaining_time_seconds := 3600
    time_spent_seconds := 0
    initial_duration_seconds := 3600 }

/-- Fixture: a second inactive TO_DO task of user 7 due on day 0. -/
def c1TaskB : Task :=
  { id := 2
    owner_id := 7
    status := .TO_DO
    due_date := 1000
    completed := false
    is_active := false
    remaining_time_seconds := 3600
    time_spent_seconds := 0
    initial_duration_seconds := 3600 }

/-- Fixture: a genuinely running task (is_active, timer started) whose
due_date is day 0, i.e. yesterday relative to a day-1 clock. -/
def c1TaskC : Task :=
  { id := 3
    owner_id := 7
    status := .IN_PROGRESS
    due_date := 0
    completed := false
    is_active := true
    start_time := some 0
    remaining_time_seconds := 1800
    time_spent_seconds := 0
    initial_duration_seconds := 3600 }

/-- Fixture: an inactive TO_DO task of user 7 due on day 1. -/
def c1TaskD : Task :=
  { id := 4
    owner_id := 7
    status := .TO_DO
    due_date := 86400000
    completed := false
    is_active := false
    remaining_time_seconds := 3600
    time_spent_seconds := 0
    initial_duration_seconds := 3600 }

/-- Fixture: an active IN_PROGRESS task (timer running). -/
def c7Active : Task :=
  { id := 3
    owner_id := 9
    status := .IN_PROGRESS
    due_date := 0
    completed := false
    is_active := true
    start_time := some 0
    remaining_time_seconds := 100
    time_spent_seconds := 0
    initial_duration_seconds := 3600 }

/-- Fixture: an inactive IN_PROGRESS task for the end-of-day witness. -/
def c7Inactive : Task :=
  { id := 4
    owner_id := 9
    status := .IN_PROGRESS
    due_date := 0
    completed := false
    is_active := false
    remaining_time_seconds := 100
    time_spent_seconds := 0
    initial_duration_seconds := 3600 }

/-- Fixture: an active task with the timer started at millisecond 1000. -/
def c6Task : Task :=
  { id := 5
    owner_id := 7
    status := .IN_PROGRESS
    due_date := 0
    completed := false
    is_active := true
    start_time := some 1000
    remaining_time_seconds := 2
    time_spent_seconds := 40
    initial_duration_seconds := 3600 }

/-- Fixture: a quiz-challenge create request with one invited friend. -/
def c4Data : ChallengeCreate :=
  { name := "quiz"
    duration_minutes := 30
    is_quiz := true
    lifespan_hours := 1
    invited_friend_ids := [5]
    quiz_data := some { duration_minutes := 10 } }

/-- Challenge row produced by creating the `c4Data` quiz challenge. -/
def c4Challenge : Challenge :=
  { id := 1
    creator_id := 42
    name := "quiz"
    duration_minutes := 30
    is_quiz := true
    lifespan_hours := 1
    expires_at := 3600
    quiz := some { duration_minutes := 10 } }

/-- Participants produced by creating the `c4Data` quiz challenge. -/
def c4Participants : List ChallengeParticipant :=
  match create_challenge c4Data 42 0 1 with
  | .ok (_, ps) => ps
  | .error _ => []

/-- Fixture: a 100-minute habit event of user 7 over [6000, 12000]
seconds. -/
def c2Existing : CalendarEvent :=
  { id := 1
    user_id := 7
    habit_id := some 1
    event_type := .habit
    start_time := 6000
    end_time := 12000 }

/-- Fixture: a task of user 3 for the past-start rejection witness. -/
def c10Task : Task :=
  { id := 8
    owner_id := 3
    status := .TO_DO
    due_date := 0
    completed := false
    is_active := false
    remaining_time_seconds := 3600
    time_spent_seconds := 0
    initial_duration_seconds := 3600 }

/-- Fixture: a calendar event of user 3 for the past-start rejection
witness. -/
def c10Event : CalendarEvent :=
  { id := 12
    user_id := 3
    task_id := some 8
    event_type := .task
    start_time := 50000
    end_time := 53600 }

/-- Fixture: a temporary daily habit request (09:00, 30 minutes, days
0..1). -/
def c5Data : HabitCreate :=
  { name := "read"
    is_permanent := false
    frequency := .daily
    duration_minutes := 30
    daily_times := [{ hour := 9, minute := 0 }]
    start_date := some 0
    end_date := some 1 }

/-- Fixture: a long event of user 1 over [30000, 40000] seconds, which the
09:00 occurrence of day 0 ([32400, 34200]) overlaps. -/
def c5Existing : CalendarEvent :=
  { id := 2
    user_id := 1
    habit_id := some 99
    event_type := .habit
    start_time := 30000
    end_time := 40000 }

/-- Fixture: an expired quiz challenge (expires_at 3600, 30-minute budget,
10-minute quiz). -/
def c8Challenge : Challenge :=
  { id := 11
    creator_id := 1
    duration_minutes := 30
    is_quiz := true
    lifespan_hours := 1
    expires_at := 3600
    quiz := some { duration_minutes := 10 } }

/-- Fixture: an accepted participant who started at second 3000 and has
not finished. -/
def c8Runner : ChallengeParticipant :=
  { id := 0
    challenge_id := 11
    user_id := 2
    status := .accepted
    start_time := some 3000 }

/-! ## Theorems -/

/-- C1: the start gate does not test `is_active` at all.
`get_active_task` selects by `completed == False` and `due_date == today`,
so (a) with NO task of user 7 active, starting task 2 still fails with
"Another task is already running." and leaves the store unchanged, and
(b) a genuinely running task due yesterday fails to block a start. -/
theorem start_timer_gate_ignores_is_active :
    (c1TaskA.is_active = false ∧ c1TaskB.is_active = false ∧
      start_task_timer [c1TaskA, c1TaskB] 2 7 2000 =
        ([c1TaskA, c1TaskB], .anotherTaskRunning)) ∧
    (c1TaskC.is_active = true ∧
      (start_task_timer [c1TaskC, c1TaskD] 4 7 86400500).2 =
        .started { c1TaskD with
          is_active := true
          start_time := some 86400500
          status := .IN_PROGRESS
          remaining_time_seconds := 3600
          last_run_date := some 86400500 }) := by
  decide

/-- C6: stopping an active task with start time `st` at time `st + ms`
adds the integer part of the elapsed seconds (`ms / 1000`) to
`time_spent_seconds`, floors `remaining_time_seconds` at 0, and clears
`is_active` and `start_time`; stopping an inactive task is a no-op
failure. -/
theorem stop_task_timer_spec (db : List Task) (task_id user_id st ms : Nat) (t : Task)
    (hfind : (db.filter fun x => x.id == task_id && x.owner_id == user_id).head? = some t) :
    (t.is_active = false → stop_task_timer db task_id user_id (st + ms) = (db, none)) ∧
    (t.is_active = true → t.start_time = some st →
      ∃ t', stop_task_timer db task_id user_id (st + ms) = (replaceTask db t', some t') ∧
        t'.time_spent_seconds = t.time_spent_seconds + ((ms / 1000 : Nat) : Int) ∧
        t'.remaining_time_seconds = max 0 (t.remaining_time_seconds - ((ms / 1000 : Nat) : Int)) ∧
        t'.is_active = false ∧ t'.start_time = none) := by
  constructor
  · intro ha
    simp [stop_task_timer, hfind, ha]
  · intro ha hst
    refine ⟨{ t with
        time_spent_seconds := t.time_spent_seconds + ((ms / 1000 : Nat) : Int)
        remaining_time_seconds := max 0 (t.remaining_time_seconds - ((ms / 1000 : Nat) : Int))
        is_active := false
        start_time := none }, ?_, rfl, rfl, rfl, rfl⟩
    simp [stop_task_timer, hfind, ha, hst, Nat.add_sub_cancel_left]

/-- C6 witness: concrete stop of `c6Task` after 2500 ms. -/
theorem stop_task_timer_spec_witness :
    ∃ t', stop_task_timer [c6Task] 5 7 3500 = (replaceTask [c6Task] t', some t') ∧
      t'.time_spent_seconds = c6Task.time_spent_seconds + ((2500 / 1000 : Nat) : Int) ∧
      t'.remaining_time_seconds =
        max 0 (c6Task.remaining_time_seconds - ((2500 / 1000 : Nat) : Int)) ∧
      t'.is_active = false ∧ t'.start_time = none :=
  (stop_task_timer_spec [c6Task] 5 7 1000 2500 c6Task (by decide)).2 (by decide) (by decide)

/-- C7 counterexample: an active IN_PROGRESS task is left untouched by the
end-of-day sweep (it is neither stopped nor marked INCOMPLETE), because
the sweep's query filters on `is_active == False`. -/
theorem end_of_day_skips_active_tasks :
    c7Active.status = TaskStatus.IN_PROGRESS ∧ c7Active.is_active = true ∧
    end_of_day_cleanup [c7Active] = [c7Active] := by
  decide

/-- C7 (amended): the end-of-day sweep forces INCOMPLETE on exactly the
tasks in {TO_DO, IN_PROGRESS} with `is_active = false`; a task with
`is_active = true` is not selected and survives unchanged. -/
theorem end_of_day_cleanup_spec (db : List Task) (t : Task) (ht : t ∈ db) :
    ((t.status = .TO_DO ∨ t.status = .IN_PROGRESS) → t.is_active = false →
      { t with status := TaskStatus.INCOMPLETE } ∈ end_of_day_cleanup db) ∧
    (t.is_active = true → t ∈ end_of_day_cleanup db) := by
  constructor
  · intro hs ha
    rw [end_of_day_cleanup]
    have hmem := List.mem_map_of_mem
      (fun t : Task =>
        if (t.status == TaskStatus.TO_DO || t.status == TaskStatus.IN_PROGRESS)
            && t.is_active == false then { t with status := TaskStatus.INCOMPLETE } else t) ht
    rcases hs with h | h <;> simpa [h, ha] using hmem
  · intro ha
    rw [end_of_day_cleanup]
    have hmem := List.mem_map_of_mem
      (fun t : Task =>
        if (t.status == TaskStatus.TO_DO || t.status == TaskStatus.IN_PROGRESS)
            && t.is_active == false then { t with status := TaskStatus.INCOMPLETE } else t) ht
    simpa [ha] using hmem

/-- C7 witness: the amended sweep rule applied to a concrete inactive
IN_PROGRESS task. -/
theorem end_of_day_cleanup_spec_witness :
    { c7Inactive with status := TaskStatus.INCOMPLETE } ∈ end_of_day_cleanup [c7Inactive] :=
  (end_of_day_cleanup_spec [c7Inactive] c7Inactive (by simp)).1 (by decide) (by decide)

/-- C4 counterexample: creating a quiz challenge (is_quiz = true) still
inserts the creator as a ChallengeParticipant with status accepted. -/
theorem quiz_challenge_still_enrolls_creator :
    c4Data.is_quiz = true ∧ (create_challenge c4Data 42 0 1).isOk = true ∧
    ({ id := 0
       challenge_id := 1
       user_id := 42
       status := ParticipantStatus.accepted } : ChallengeParticipant) ∈ c4Participants := by
  decide

/-- C4 (amended): every successful challenge creation — quiz or not —
inserts the creator as an accepted participant. -/
theorem create_challenge_creator_accepted (challenge_data : ChallengeCreate)
    (current_user : Nat) (now : Int) (cid : Nat) (c : Challenge)
    (ps : List ChallengeParticipant)
    (h : create_challenge challenge_data current_user now cid = .ok (c, ps)) :
    ({ id := 0
       challenge_id := cid
       user_id := current_user
       status := ParticipantStatus.accepted } : ChallengeParticipant) ∈ ps := by
  unfold create_challenge at h
  split at h
  · exact absurd h (by simp)
  · simp only [Except.ok.injEq, Prod.mk.injEq] at h
    rcases h with ⟨-, hps⟩
    rw [← hps]
    exact List.mem_append_right _ (List.mem_singleton.mpr rfl)

/-- C4 witness: the amended rule applied to the concrete quiz request. -/
theorem create_challenge_creator_accepted_witness :
    ({ id := 0
       challenge_id := 1
       user_id := 42
       status := ParticipantStatus.accepted } : ChallengeParticipant) ∈ c4Participants :=
  create_challenge_creator_accepted c4Data 42 0 1 c4Challenge c4Participants (by rfl)

/-- C3: a proposal with duration in [1,10] minutes passes both conflict
checks regardless of the user's existing events, and an existing event
whose own duration is at most 10 minutes is never part of a reported
conflict list. -/
theorem short_event_exemption (user_id : Nat) (s t now : ℚ)
    (db : List CalendarEvent) (ex : Option Nat) (e : CalendarEvent) :
    (¬ s < now → 1 ≤ (t - s) / 60 → (t - s) / 60 ≤ 10 →
      validate_schedule_time user_id s t db ex now = .ok ()) ∧
    (1 ≤ (t - s) / 60 → (t - s) / 60 ≤ 10 →
      check_habit_conflicts user_id s t db = none) ∧
    ((e.end_time - e.start_time) / 60 ≤ 10 →
      ∀ lst, validate_schedule_time user_id s t db ex now = .error (.conflictError lst) →
        e ∉ lst) ∧
    ((e.end_time - e.start_time) / 60 ≤ 10 →
      ∀ lst, check_habit_conflicts user_id s t db = some lst → e ∉ lst) := by
  refine ⟨?_, ?_, ?_, ?_⟩
  · intro hnow h1 h2
    simp [validate_schedule_time, hnow, h1, h2]
  · intro h1 h2
    simp [check_habit_conflicts, h1, h2]
  · intro hshort lst hval he
    simp only [validate_schedule_time] at hval
    split at hval
    · exact absurd hval (by simp)
    · split at hval
      · exact absurd hval (by simp)
      · split at hval
        · exact absurd hval (by simp)
        · simp only [Except.error.injEq, ScheduleError.conflictError.injEq] at hval
          subst hval
          have hd := List.of_mem_filter he
          rw [decide_eq_true_iff] at hd
          linarith
  · intro hshort lst hval he
    simp only [check_habit_conflicts] at hval
    split at hval
    · exact absurd hval (by simp)
    · split at hval
      · exact absurd hval (by simp)
      · simp only [Option.some.injEq] at hval
        subst hval
        have hd := List.of_mem_filter he
        rw [decide_eq_true_iff] at hd
        linarith

/-- C3 witness: a 5-minute proposal over a store holding a long event it
would otherwise overlap. -/
theorem short_event_exemption_witness :
    validate_schedule_time 7 6060 6360 [c2Existing] none 0 = .ok () ∧
    check_habit_conflicts 7 6060 6360 [c2Existing] = none :=
  ⟨(short_event_exemption 7 6060 6360 0 [c2Existing] none c2Existing).1
      (by norm_num) (by norm_num) (by norm_num),
   (short_event_exemption 7 6060 6360 0 [c2Existing] none c2Existing).2.1
      (by norm_num) (by norm_num)⟩

/-- C10: a start time strictly before `now` makes `validate_schedule_time`
fail with the past-schedule error whatever the end time, events and
exclusion are (so before any duration or conflict logic, exempt short
events included); consequently `schedule_task` and
`update_calendar_event` reject the call and leave the event store
unchanged. -/
theorem past_start_rejected (tasks : List Task) (events : List CalendarEvent)
    (habits : List Habit) (tid eid uid nid : Nat) (s now : ℚ) (h : s < now) :
    (∀ (end_time : ℚ) (db : List CalendarEvent) (ex : Option Nat),
      validate_schedule_time uid s end_time db ex now = .error .pastError) ∧
    (schedule_task tasks events tid s uid now nid).1 = events ∧
    (∀ tk, (tasks.filter fun x => x.id == tid && x.owner_id == uid).head? = some tk →
      (events.filter fun e => e.task_id == some tid).head? = none →
      schedule_task tasks events tid s uid now nid = (events, .validationError .pastError)) ∧
    (update_calendar_event events tasks habits eid s uid now).1 = events ∧
    (∀ ev, (events.filter fun e => e.id == eid && e.user_id == uid).head? = some ev →
      update_calendar_event events tasks habits eid s uid now =
        (events, .validationError .pastError)) := by
  have hval : ∀ (end_time : ℚ) (db : List CalendarEvent) (ex : Option Nat),
      validate_schedule_time uid s end_time db ex now = .error .pastError := by
    intro e2 db ex
    simp [validate_schedule_time, h]
  refine ⟨hval, ?_, ?_, ?_, ?_⟩
  · unfold schedule_task
    split
    · rfl
    · split
      · rfl
      · simp [hval]
  · intro tk h1 h2
    unfold schedule_task
    rw [h1, h2]
    simp [hval]
  · unfold update_calendar_event
    split
    · rfl
    · simp [hval]
  · intro ev h1
    unfold update_calendar_event
    rw [h1]
    simp [hval]

/-- C10 witness: concrete past-start rejections of a schedule and an
update. -/
theorem past_start_rejected_witness :
    schedule_task [c10Task] [] 8 0 3 1 99 = ([], .validationError .pastError) ∧
    update_calendar_event [c10Event] [] [] 12 0 3 1 =
      ([c10Event], .validationError .pastError) :=
  ⟨(past_start_rejected [c10Task] [] [] 8 12 3 99 0 1 (by norm_num)).2.2.1
      c10Task (by rfl) (by rfl),
   (past_start_rejected [] [c10Event] [] 8 12 3 99 0 1 (by norm_num)).2.2.2.2
      c10Event (by rfl)⟩

/-- C2 counterexample: touching boundaries are NOT reported.  A 100-minute
event of user 7 ending exactly when a 100-minute proposal starts (and,
symmetrically, starting exactly when a proposal ends) yields no conflict
from either checker, though the claim requires it to be reported. -/
theorem touching_events_not_reported :
    (c2Existing.end_time - c2Existing.start_time) / 60 > 10 ∧
    ((18000 : ℚ) - 12000) / 60 > 10 ∧
    c2Existing.end_time = (12000 : ℚ) ∧
    validate_schedule_time 7 12000 18000 [c2Existing] none 0 = .ok () ∧
    check_habit_conflicts 7 12000 18000 [c2Existing] = none ∧
    c2Existing.start_time = (6000 : ℚ) ∧
    validate_schedule_time 7 0 6000 [c2Existing] none 0 = .ok () ∧
    check_habit_conflicts 7 0 6000 [c2Existing] = none :=
  ⟨by norm_num [c2Existing], by norm_num, by norm_num [c2Existing],
   by norm_num [validate_schedule_time, check_habit_conflicts, overlapsQuery, c2Existing],
   by norm_num [validate_schedule_time, check_habit_conflicts, overlapsQuery, c2Existing],
   by norm_num [c2Existing],
   by norm_num [validate_schedule_time, check_habit_conflicts, overlapsQuery, c2Existing],
   by norm_num [validate_schedule_time, check_habit_conflicts, overlapsQuery, c2Existing]⟩

/-- Helper: the three-shape overlap query is exactly strict interval
overlap for genuine intervals. -/
theorem overlapsQuery_iff_strict (e : CalendarEvent) (s t : ℚ)
    (he : e.start_time < e.end_time) (hst : s < t) :
    overlapsQuery e s t = true ↔ (e.start_time < t ∧ s < e.end_time) := by
  simp only [overlapsQuery, Bool.or_eq_true, Bool.and_eq_true, decide_eq_true_eq]
  constructor
  · rintro ((⟨h1, h2⟩ | ⟨h1, h2⟩) | ⟨h1, h2⟩) <;> exact ⟨by linarith, by linarith⟩
  · rintro ⟨h1, h2⟩
    by_cases hc : e.start_time ≤ s
    · exact Or.inl (Or.inl ⟨hc, by linarith⟩)
    · push_neg at hc
      by_cases hd : e.end_time ≤ t
      · exact Or.inr ⟨by linarith, hd⟩
      · push_neg at hd
        exact Or.inl (Or.inr ⟨h1, by linarith⟩)

/-- C2 (amended): for a proposed interval and a same-user existing event
both strictly longer than 10 minutes, the conflict check reports the
existing event iff the two intervals strictly overlap (share more than a
boundary point); mere touching is not reported. -/
theorem conflict_iff_strict_overlap (user_id : Nat) (s t now : ℚ)
    (db : List CalendarEvent) (e : CalendarEvent) (he : e ∈ db)
    (huser : e.user_id = user_id) (hnow : ¬ s < now)
    (hdur : (t - s) / 60 > 10) (hedur : (e.end_time - e.start_time) / 60 > 10) :
    (∃ lst, validate_schedule_time user_id s t db none now = .error (.conflictError lst) ∧
      e ∈ lst) ↔ (e.start_time < t ∧ s < e.end_time) := by
  have h600 : t - s > 600 := by
    rw [gt_iff_lt, lt_div_iff₀ (by norm_num : (0:ℚ) < 60)] at hdur
    linarith
  have he600 : e.end_time - e.start_time > 600 := by
    rw [gt_iff_lt, lt_div_iff₀ (by norm_num : (0:ℚ) < 60)] at hedur
    linarith
  have hst : s < t := by linarith
  have hee : e.start_time < e.end_time := by linarith
  have hexempt : ¬ (1 ≤ (t - s) / 60 ∧ (t - s) / 60 ≤ 10) := by
    rintro ⟨-, h2⟩
    linarith
  simp only [validate_schedule_time, if_neg hnow, if_neg hexempt]
  set final : List CalendarEvent :=
    (db.filter fun x => x.user_id == user_id && overlapsQuery x s t).filter
      (fun x => decide ((x.end_time - x.start_time) / 60 > 10)) with hfinal
  have hmem : e ∈ final ↔ (e.start_time < t ∧ s < e.end_time) := by
    rw [hfinal, List.mem_filter, List.mem_filter]
    constructor
    · rintro ⟨⟨-, hb⟩, -⟩
      rw [Bool.and_eq_true] at hb
      exact (overlapsQuery_iff_strict e s t hee hst).mp hb.2
    · intro hov
      refine ⟨⟨he, ?_⟩, decide_eq_true hedur⟩
      rw [Bool.and_eq_true]
      exact ⟨by simp [huser], (overlapsQuery_iff_strict e s t hee hst).mpr hov⟩
  by_cases hfe : final.isEmpty
  · rw [if_pos hfe]
    simp only [List.isEmpty_iff] at hfe
    constructor
    · rintro ⟨lst, hcontra, -⟩
      exact absurd hcontra (by simp)
    · intro hov
      have := hmem.mpr hov
      rw [hfe] at this
      exact absurd this (List.not_mem_nil e)
  · rw [if_neg hfe]
    constructor
    · rintro ⟨lst, heq, hm⟩
      simp only [Except.error.injEq, ScheduleError.conflictError.injEq] at heq
      exact hmem.mp (heq ▸ hm)
    · intro hov
      exact ⟨final, rfl, hmem.mpr hov⟩

/-- C2 witness: a genuinely overlapping pair is reported. -/
theorem conflict_iff_strict_overlap_witness :
    ∃ lst, validate_schedule_time 7 11000 13000 [c2Existing] none 0 =
      .error (.conflictError lst) ∧ c2Existing ∈ lst :=
  (conflict_iff_strict_overlap 7 11000 13000 0 [c2Existing] c2Existing
    (by simp) (by rfl) (by norm_num) (by norm_num) (by norm_num [c2Existing])).mpr
    (by norm_num [c2Existing])

/-- Helper: a conflict error of the daily slot loop is tagged with the
walked day and stems from a flagged `check_habit_conflicts` call on one of
the slots. -/
theorem gen_daily_slots_error_inv (habit : Habit) (user_id d : Nat)
    (slots : List TimeSlot) (db : List CalendarEvent) (tag : ConflictTag)
    (h : _generate_daily_slots habit user_id d slots db = .error tag) :
    tag.date = d ∧ ∃ slot ∈ slots, ∃ acc,
      check_habit_conflicts user_id (combineSec d slot.hour slot.minute)
        (combineSec d slot.hour slot.minute + (habit.duration_minutes : ℚ) * 60) acc =
        some tag.conflicts := by
  induction slots generalizing db with
  | nil => simp [_generate_daily_slots] at h
  | cons slot rest ih =>
    simp only [_generate_daily_slots] at h
    split at h
    · rcases tag with ⟨td, tc⟩
      simp only [Except.error.injEq, ConflictTag.mk.injEq] at h
      rcases h with ⟨hd, hc⟩
      subst hd; subst hc
      exact ⟨rfl, slot, List.mem_cons_self _ _, db, by assumption⟩
    · rcases ih _ h with ⟨hd, slot', hmem, acc, hacc⟩
      exact ⟨hd, slot', List.mem_cons_of_mem _ hmem, acc, hacc⟩

/-- Helper: a conflict error of the daily day loop stems from the slot loop
run on the day the tag names. -/
theorem gen_daily_loop_error_inv (habit : Habit) (user_id : Nat) :
    ∀ (n d : Nat) (db : List CalendarEvent) (tag : ConflictTag),
    _generate_daily_loop habit user_id d n db = .error tag →
    ∃ acc, _generate_daily_slots habit user_id tag.date habit.daily_times acc = .error tag := by
  intro n
  induction n with
  | zero => intro d db tag h; simp [_generate_daily_loop] at h
  | succ n ih =>
    intro d db tag h
    rw [_generate_daily_loop] at h
    split at h
    · rename_i e heq
      cases h
      have hd := (gen_daily_slots_error_inv habit user_id d _ db _ heq).1
      exact ⟨db, by rw [hd]; exact heq⟩
    · exact ih _ _ _ h

/-- Helper: a conflict error of the weekly slot loop is tagged with the
walked day and stems from a flagged check on a slot matching that day. -/
theorem gen_weekly_slots_error_inv (habit : Habit) (user_id d : Nat)
    (slots : List WeeklyTimeSlot) (db : List CalendarEvent) (tag : ConflictTag)
    (h : _generate_weekly_slots habit user_id d slots db = .error tag) :
    tag.date = d ∧ ∃ slot ∈ slots, weeklyMatches d slot = true ∧ ∃ acc,
      check_habit_conflicts user_id (combineSec d slot.hour slot.minute)
        (combineSec d slot.hour slot.minute + (habit.duration_minutes : ℚ) * 60) acc =
        some tag.conflicts := by
  induction slots generalizing db with
  | nil => simp [_generate_weekly_slots] at h
  | cons slot rest ih =>
    simp only [_generate_weekly_slots] at h
    split at h
    · rcases ih _ h with ⟨hd, slot', hmem, hw, acc, hacc⟩
      exact ⟨hd, slot', List.mem_cons_of_mem _ hmem, hw, acc, hacc⟩
    · rename_i hnm
      split at h
      · rcases tag with ⟨td, tc⟩
        simp only [Except.error.injEq, ConflictTag.mk.injEq] at h
        rcases h with ⟨hd, hc⟩
        subst hd; subst hc
        refine ⟨rfl, slot, List.mem_cons_self _ _, ?_, db, by assumption⟩
        simpa using hnm
      · rcases ih _ h with ⟨hd, slot', hmem, hw, acc, hacc⟩
        exact ⟨hd, slot', List.mem_cons_of_mem _ hmem, hw, acc, hacc⟩

/-- Helper: a conflict error of the weekly day loop stems from the slot
loop run on the day the tag names. -/
theorem gen_weekly_loop_error_inv (habit : Habit) (user_id : Nat) :
    ∀ (n d : Nat) (db : List CalendarEvent) (tag : ConflictTag),
    _generate_weekly_loop habit user_id d n db = .error tag →
    ∃ acc, _generate_weekly_slots habit user_id tag.date habit.weekly_times acc = .error tag := by
  intro n
  induction n with
  | zero => intro d db tag h; simp [_generate_weekly_loop] at h
  | succ n ih =>
    intro d db tag h
    rw [_generate_weekly_loop] at h
    split at h
    · rename_i e heq
      cases h
      have hd := (gen_weekly_slots_error_inv habit user_id d _ db _ heq).1
      exact ⟨db, by rw [hd]; exact heq⟩
    · exact ih _ _ _ h

/-- Helper: a conflict error of the monthly slot loop is tagged with the
walked day and stems from a flagged check on a slot matching its
day-of-month. -/
theorem gen_monthly_slots_error_inv (habit : Habit) (user_id d : Nat)
    (slots : List MonthlyTimeSlot) (db : List CalendarEvent) (tag : ConflictTag)
    (h : _generate_monthly_slots habit user_id d slots db = .error tag) :
    tag.date = d ∧ ∃ slot ∈ slots, civilDayOfMonth d = slot.day ∧ ∃ acc,
      check_habit_conflicts user_id (combineSec d slot.hour slot.minute)
        (combineSec d slot.hour slot.minute + (habit.duration_minutes : ℚ) * 60) acc =
        some tag.conflicts := by
  induction slots generalizing db with
  | nil => simp [_generate_monthly_slots] at h
  | cons slot rest ih =>
    simp only [_generate_monthly_slots] at h
    split at h
    · rcases ih _ h with ⟨hd, slot', hmem, hw, acc, hacc⟩
      exact ⟨hd, slot', List.mem_cons_of_mem _ hmem, hw, acc, hacc⟩
    · rename_i hnm
      split at h
      · rcases tag with ⟨td, tc⟩
        simp only [Except.error.injEq, ConflictTag.mk.injEq] at h
        rcases h with ⟨hd, hc⟩
        subst hd; subst hc
        refine ⟨rfl, slot, List.mem_cons_self _ _, ?_, db, by assumption⟩
        simpa using hnm
      · rcases ih _ h with ⟨hd, slot', hmem, hw, acc, hacc⟩
        exact ⟨hd, slot', List.mem_cons_of_mem _ hmem, hw, acc, hacc⟩

/-- Helper: a conflict error of the monthly day loop stems from the slot
loop run on the day the tag names. -/
theorem gen_monthly_loop_error_inv (habit : Habit) (user_id : Nat) :
    ∀ (n d : Nat) (db : List CalendarEvent) (tag : ConflictTag),
    _generate_monthly_loop habit user_id d n db = .error tag →
    ∃ acc, _generate_monthly_slots habit user_id tag.date habit.monthly_times acc = .error tag := by
  intro n
  induction n with
  | zero => intro d db tag h; simp [_generate_monthly_loop] at h
  | succ n ih =>
    intro d db tag h
    rw [_generate_monthly_loop] at h
    split at h
    · rename_i e heq
      cases h
      have hd := (gen_monthly_slots_error_inv habit user_id d _ db _ heq).1
      exact ⟨db, by rw [hd]; exact heq⟩
    · exact ih _ _ _ h

/-- Helper: any conflict error of `generate_habit_events` stems from a
flagged `check_habit_conflicts` call on an occurrence of the habit
beginning on the tagged date. -/
theorem generate_habit_events_error_inv (habit : Habit) (db : List CalendarEvent)
    (user_id today : Nat) (tag : ConflictTag)
    (h : generate_habit_events habit db user_id today = .error tag) :
    ∃ s acc, occurrenceAt habit tag.date s ∧
      check_habit_conflicts user_id s (s + (habit.duration_minutes : ℚ) * 60) acc =
        some tag.conflicts := by
  rw [generate_habit_events] at h
  split at h
  · rename_i hf
    rw [_generate_daily_events] at h
    split at h
    · simp at h
    · rcases gen_daily_loop_error_inv habit user_id _ _ db tag h with ⟨acc, hacc⟩
      rcases gen_daily_slots_error_inv habit user_id _ _ acc tag hacc with ⟨-, slot, hmem, acc', hc⟩
      exact ⟨combineSec tag.date slot.hour slot.minute, acc',
        by simp only [occurrenceAt, hf]; exact ⟨slot, hmem, rfl⟩, hc⟩
  · rename_i hf
    rw [_generate_weekly_events] at h
    split at h
    · simp at h
    · rcases gen_weekly_loop_error_inv habit user_id _ _ db tag h with ⟨acc, hacc⟩
      rcases gen_weekly_slots_error_inv habit user_id _ _ acc tag hacc with
        ⟨-, slot, hmem, hw, acc', hc⟩
      exact ⟨combineSec tag.date slot.hour slot.minute, acc',
        by simp only [occurrenceAt, hf]; exact ⟨slot, hmem, hw, rfl⟩, hc⟩
  · rename_i hf
    rw [_generate_monthly_events] at h
    split at h
    · simp at h
    · rcases gen_monthly_loop_error_inv habit user_id _ _ db tag h with ⟨acc, hacc⟩
      rcases gen_monthly_slots_error_inv habit user_id _ _ acc tag hacc with
        ⟨-, slot, hmem, hw, acc', hc⟩
      exact ⟨combineSec tag.date slot.hour slot.minute, acc',
        by simp only [occurrenceAt, hf]; exact ⟨slot, hmem, hw, rfl⟩, hc⟩

/-- C5: habit materialization is all-or-nothing.  When the expansion of the
newly committed Habit row flags a conflict, `create_habit` surfaces that
conflict tagged with the date it occurred on, commits none of the
expansion's CalendarEvents, and deletes the Habit row itself again: the
resulting stores equal the original ones.  Moreover the tag really stems
from a flagged conflict check on an occurrence of the habit on the tagged
date. -/
theorem habit_materialization_all_or_nothing
    (habit_data : HabitCreate) (habits : List Habit) (db : List CalendarEvent)
    (current_user today new_habit_id : Nat) (tag : ConflictTag)
    (hdup : (habits.filter fun h =>
      h.user_id == current_user && h.name == habit_data.name && h.is_active).head? = none)
    (hval : validate_habit_data habit_data = .ok ())
    (hgen : generate_habit_events (habitOfCreate habit_data current_user new_habit_id) db
      current_user today = .error tag) :
    create_habit habit_data habits db current_user today new_habit_id =
      (.error (.conflict tag), habits, db) ∧
    ∃ s acc, occurrenceAt (habitOfCreate habit_data current_user new_habit_id) tag.date s ∧
      check_habit_conflicts current_user s
        (s + ((habitOfCreate habit_data current_user new_habit_id).duration_minutes : ℚ) * 60)
        acc = some tag.conflicts := by
  constructor
  · simp [create_habit, hdup, hval, hgen]
  · exact generate_habit_events_error_inv _ db current_user today tag hgen

/-- C5 witness: creating the `c5Data` habit against a store holding
`c5Existing` aborts with the conflict tagged day 0 and leaves both stores
unchanged. -/
theorem habit_materialization_all_or_nothing_witness :
    create_habit c5Data [] [c5Existing] 1 0 9 =
      (.error (.conflict ⟨0, [c5Existing]⟩), [], [c5Existing]) :=
  (habit_materialization_all_or_nothing c5Data [] [c5Existing] 1 0 9 ⟨0, [c5Existing]⟩
    (by rfl) (by rfl)
    (by norm_num [generate_habit_events, _generate_daily_events, _generate_daily_loop,
      _generate_daily_slots, check_habit_conflicts, overlapsQuery, combineSec,
      habitOfCreate, c5Data, c5Existing])).1

/-- C8: the expiry sweep defers a challenge while a runner is in its grace
window.  If some accepted participant has a start time, no end time, and
elapsed time at most `max_duration + 300` seconds, `process_challenge`
produces no settlement record (no ranking, no cups, no
`challenges_count` increments) and the expired challenge stays in the
store for a later sweep instead of being deleted. -/
theorem expiry_sweep_defers_within_grace
    (store : List (Challenge × List ChallengeParticipant)) (now st : Int)
    (c : Challenge) (ps : List ChallengeParticipant) (p : ChallengeParticipant)
    (hmem : (c, ps) ∈ store) (hp : p ∈ ps) (hexp : c.expires_at ≤ now)
    (hstatus : p.status = .accepted) (hst : p.start_time = some st)
    (hend : p.end_time = none) (hgrace : now - st ≤ max_duration c + 300) :
    (process_challenge c ps now).2 = none ∧
    (c, (ps.map (sweepParticipant c now)).map Prod.fst) ∈
      (process_expired_challenges store now).1 := by
  have hnot : ¬ (now - st > max_duration c + 300) := not_lt.mpr hgrace
  have hsp : sweepParticipant c now p = (p, false) := by
    simp [sweepParticipant, hstatus, hst, hend, hnot]
  have hall : (ps.map (sweepParticipant c now)).all Prod.snd = false := by
    apply List.all_eq_false.mpr
    refine ⟨(p, false), ?_, by simp⟩
    rw [← hsp]
    exact List.mem_map_of_mem _ hp
  have hpc : process_challenge c ps now =
      ((ps.map (sweepParticipant c now)).map Prod.fst, none) := by
    simp [process_challenge, hall]
  refine ⟨by rw [hpc], ?_⟩
  clear hp hsp hall hnot hstatus hst hend hgrace
  induction store with
  | nil => cases hmem
  | cons head tail ih =>
    simp only [process_expired_challenges, List.foldr_cons] at ih ⊢
    rcases List.mem_cons.mp hmem with hhead | htail
    · subst hhead
      rw [if_pos (decide_eq_true hexp), hpc]
      exact List.mem_cons_self _ _
    · have hrest := ih htail
      split
      · split
        · exact List.mem_cons_of_mem _ hrest
        · exact hrest
      · exact List.mem_cons_of_mem _ hrest

/-- C8 witness: an expired quiz challenge with a runner 1000 s into a
2700 s budget-plus-grace window is deferred. -/
theorem expiry_sweep_defers_within_grace_witness :
    (process_challenge c8Challenge [c8Runner] 4000).2 = none ∧
    (c8Challenge, ([c8Runner].map (sweepParticipant c8Challenge 4000)).map Prod.fst) ∈
      (process_expired_challenges [(c8Challenge, [c8Runner])] 4000).1 :=
  expiry_sweep_defers_within_grace [(c8Challenge, [c8Runner])] 4000 3000
    c8Challenge [c8Runner] c8Runner (by simp) (by simp) (by decide)
    (by rfl) (by rfl) (by rfl) (by decide)

namespace Maintain

/-- Helper: unfolding of the duplicate-avoidance query. -/
theorem existsEvent_iff (db : List CalendarEvent) (hid st : Nat) :
    existsEvent db hid st = true ↔
      ∃ e ∈ db, e.habit_id = hid ∧ e.start_time = st := by
  simp [existsEvent, List.any_eq_true]

/-- Helper: `addStarts` only appends events of the habit. -/
theorem addStarts_shape (habit : Habit) : ∀ (starts : List Nat) (db : List CalendarEvent),
    ∃ extra, (addStarts habit starts db).1 = db ++ extra ∧
      ∀ e ∈ extra, e.habit_id = habit.id := by
  intro starts
  induction starts with
  | nil => intro db; exact ⟨[], by simp [addStarts], by simp⟩
  | cons st rest ih =>
    intro db
    simp only [addStarts]
    split
    · exact ih db
    · rcases ih (db ++ [⟨habit.id, habit.user_id, st, st + habit.duration_minutes⟩]) with
        ⟨extra, h1, h2⟩
      refine ⟨⟨habit.id, habit.user_id, st, st + habit.duration_minutes⟩ :: extra, ?_, ?_⟩
      · rw [h1]; simp
      · intro e he
        rcases List.mem_cons.mp he with rfl | hmem
        · rfl
        · exact h2 e hmem

/-- Helper: `addStarts` keeps every stored event. -/
theorem addStarts_mem_mono (habit : Habit) (starts : List Nat) (db : List CalendarEvent)
    (e : CalendarEvent) (he : e ∈ db) : e ∈ (addStarts habit starts db).1 := by
  rcases addStarts_shape habit starts db with ⟨extra, h1, -⟩
  rw [h1]
  exact List.mem_append_left _ he

/-- Helper: after `addStarts`, every requested start minute has an event of
the habit. -/
theorem addStarts_covers (habit : Habit) : ∀ (starts : List Nat) (db : List CalendarEvent)
    (st : Nat), st ∈ starts →
    ∃ e ∈ (addStarts habit starts db).1, e.habit_id = habit.id ∧ e.start_time = st := by
  intro starts
  induction starts with
  | nil => intro db st h; cases h
  | cons s rest ih =>
    intro db st hst
    simp only [addStarts]
    split
    · rename_i hex
      rcases List.mem_cons.mp hst with rfl | hmem
      · rcases (existsEvent_iff db habit.id st).mp hex with ⟨e, he, hp⟩
        exact ⟨e, addStarts_mem_mono habit rest db e he, hp⟩
      · exact ih db st hmem
    · rcases List.mem_cons.mp hst with rfl | hmem
      · refine ⟨⟨habit.id, habit.user_id, st, st + habit.duration_minutes⟩, ?_, rfl, rfl⟩
        exact addStarts_mem_mono habit rest _ _ (by simp)
      · exact ih _ st hmem

/-- Helper: when every requested start already has an event, `addStarts`
adds nothing and returns the store unchanged. -/
theorem addStarts_dedup (habit : Habit) : ∀ (starts : List Nat) (db : List CalendarEvent),
    (∀ st ∈ starts, ∃ e ∈ db, e.habit_id = habit.id ∧ e.start_time = st) →
    addStarts habit starts db = (db, 0) := by
  intro starts
  induction starts with
  | nil => intro db _; rfl
  | cons s rest ih =>
    intro db hcov
    have hex : existsEvent db habit.id s = true :=
      (existsEvent_iff db habit.id s).mpr (hcov s (List.mem_cons_self _ _))
    simp only [addStarts, hex, if_true]
    exact ih db fun st hst => hcov st (List.mem_cons_of_mem _ hst)

/-- Helper: one unfolding step of the day walk. -/
theorem walkDays_succ (habit : Habit) (d n : Nat) (db : List CalendarEvent) :
    walkDays habit d (n + 1) db =
      ((walkDays habit (d + 1) n (addStarts habit (dayStarts habit d) db).1).1,
       (addStarts habit (dayStarts habit d) db).2 +
         (walkDays habit (d + 1) n (addStarts habit (dayStarts habit d) db).1).2) := by
  cases h : habit.frequency <;>
    simp [walkDays, _add_daily_events, _add_weekly_events, _add_monthly_events, dayStarts, h]

/-- Helper: the day walk only appends events of the habit. -/
theorem walk_shape (habit : Habit) : ∀ (n d : Nat) (db : List CalendarEvent),
    ∃ extra, (walkDays habit d n db).1 = db ++ extra ∧
      ∀ e ∈ extra, e.habit_id = habit.id := by
  intro n
  induction n with
  | zero => intro d db; exact ⟨[], by simp [walkDays], by simp⟩
  | succ n ih =>
    intro d db
    rw [walkDays_succ]
    rcases addStarts_shape habit (dayStarts habit d) db with ⟨e1, h1, hid1⟩
    rcases ih (d + 1) (addStarts habit (dayStarts habit d) db).1 with ⟨e2, h2, hid2⟩
    refine ⟨e1 ++ e2, ?_, ?_⟩
    · rw [h2, h1, List.append_assoc]
    · intro e he
      rcases List.mem_append.mp he with h | h
      · exact hid1 e h
      · exact hid2 e h

/-- Helper: the day walk keeps every stored event. -/
theorem walk_mem_mono (habit : Habit) (n d : Nat) (db : List CalendarEvent)
    (e : CalendarEvent) (he : e ∈ db) : e ∈ (walkDays habit d n db).1 := by
  rcases walk_shape habit n d db with ⟨extra, h1, -⟩
  rw [h1]
  exact List.mem_append_left _ he

/-- Helper: after the day walk, every walked day is fully materialized. -/
theorem walk_covers (habit : Habit) : ∀ (n d : Nat) (db : List CalendarEvent)
    (j : Nat), j < n → Covered habit (walkDays habit d n db).1 (d + j) := by
  intro n
  induction n with
  | zero => intro d db j hj; omega
  | succ n ih =>
    intro d db j hj
    rw [walkDays_succ]
    cases j with
    | zero =>
      intro st hst
      rcases addStarts_covers habit (dayStarts habit d) db st hst with ⟨e, he, hp⟩
      exact ⟨e, walk_mem_mono habit n (d + 1) _ e he, hp⟩
    | succ j =>
      have hj' : j < n := by omega
      have := ih (d + 1) (addStarts habit (dayStarts habit d) db).1 j hj'
      have harith : d + 1 + j = d + (j + 1) := by omega
      rwa [harith] at this

/-- Helper: when every walked day is already materialized, the day walk
adds nothing and returns the store unchanged. -/
theorem walk_dedup (habit : Habit) : ∀ (n d : Nat) (db : List CalendarEvent),
    (∀ j < n, Covered habit db (d + j)) →
    walkDays habit d n db = (db, 0) := by
  intro n
  induction n with
  | zero => intro d db _; rfl
  | succ n ih =>
    intro d db hcov
    have h0 : Covered habit db d := by
      have := hcov 0 (by omega)
      simpa using this
    have hadd : addStarts habit (dayStarts habit d) db = (db, 0) :=
      addStarts_dedup habit (dayStarts habit d) db h0
    rw [walkDays_succ, hadd]
    have hrest : walkDays habit (d + 1) n db = (db, 0) := by
      apply ih
      intro j hj
      have := hcov (j + 1) (by omega)
      have harith : d + (j + 1) = d + 1 + j := by omega
      rwa [harith] at this
    rw [hrest]
    rfl

/-- Helper: a natural is at most the max-fold over a list seeded with
it. -/
theorem le_foldl_max : ∀ (l : List Nat) (x : Nat), x ≤ l.foldl max x := by
  intro l
  induction l with
  | nil => intro x; exact le_rfl
  | cons a l ih =>
    intro x
    exact le_trans (le_max_left x a) (ih (max x a))

/-- Helper: `lastStart?` is `none` exactly when the habit has no stored
events. -/
theorem lastStart?_eq_none_iff (habit : Habit) (db : List CalendarEvent) :
    lastStart? habit db = none ↔ habitStarts habit db = [] := by
  rw [lastStart?]
  cases h : habitStarts habit db <;> simp

/-- Helper: `habitStarts` distributes over append. -/
theorem habitStarts_append (habit : Habit) (db extra : List CalendarEvent) :
    habitStarts habit (db ++ extra) = habitStarts habit db ++ habitStarts habit extra := by
  simp [habitStarts]

/-- Helper: appending rows can only raise the latest start. -/
theorem lastStart?_append_ge (habit : Habit) (db extra : List CalendarEvent) (m : Nat)
    (h : lastStart? habit db = some m) :
    ∃ m', lastStart? habit (db ++ extra) = some m' ∧ m ≤ m' := by
  rw [lastStart?] at h ⊢
  rw [habitStarts_append]
  cases hdb : habitStarts habit db with
  | nil => rw [hdb] at h; cases h
  | cons x xs =>
    rw [hdb] at h
    simp only [Option.some.injEq] at h
    subst h
    rw [List.cons_append]
    refine ⟨_, rfl, ?_⟩
    rw [List.foldl_append]
    exact le_foldl_max _ _

/-- Helper: `lastStart?` only depends on the habit's id. -/
theorem lastStart?_congr (h1 h2 : Habit) (db : List CalendarEvent) (h : h1.id = h2.id) :
    lastStart? h1 db = lastStart? h2 db := by
  simp [lastStart?, habitStarts, h]

/-- Helper: coverage survives appending rows. -/
theorem Covered_append_mono (habit : Habit) (db extra : List CalendarEvent) (d : Nat)
    (h : Covered habit db d) : Covered habit (db ++ extra) d := by
  intro st hst
  rcases h st hst with ⟨e, he, hp⟩
  exact ⟨e, List.mem_append_left _ he, hp⟩

/-- Helper: an extension only appends events of the habit it extends. -/
theorem extend_shape (g : Habit) (db : List CalendarEvent) (today : Nat) :
    ∃ extra, (_extend_habit_schedule g db today).1 = db ++ extra ∧
      ∀ e ∈ extra, e.habit_id = g.id := by
  rw [_extend_habit_schedule]
  cases hls : lastStart? g db with
  | none => exact ⟨[], by simp, by simp⟩
  | some m =>
    simp only
    by_cases hsk : today + get_schedule_period g.frequency ≤ m / minutesPerDay
    · rw [if_pos hsk]
      exact ⟨[], by simp, by simp⟩
    · rw [if_neg hsk]
      exact walk_shape g _ _ db

/-- Helper: a `Ready` habit's extension is a no-op. -/
theorem Ready_extend (habit : Habit) (db : List CalendarEvent) (today : Nat)
    (h : Ready habit db today) :
    _extend_habit_schedule habit db today = (db, 0) := by
  rw [_extend_habit_schedule]
  rcases h with hnone | ⟨m, hm, hcase⟩
  · rw [hnone]
  · rw [hm]
    show (if today + get_schedule_period habit.frequency ≤ m / minutesPerDay then (db, 0)
      else walkDays habit (m / minutesPerDay + 1)
        (today + get_schedule_period habit.frequency - m / minutesPerDay) db) = (db, 0)
    by_cases hsk : today + get_schedule_period habit.frequency ≤ m / minutesPerDay
    · rw [if_pos hsk]
    · rw [if_neg hsk]
      rcases hcase with hskip | hcov
      · exact absurd hskip hsk
      · apply walk_dedup
        intro j hj
        apply hcov <;> omega

/-- Helper: after its own extension a habit is `Ready`. -/
theorem Ready_establish (habit : Habit) (db : List CalendarEvent) (today : Nat) :
    Ready habit ((_extend_habit_schedule habit db today).1) today := by
  rw [_extend_habit_schedule]
  cases hls : lastStart? habit db with
  | none =>
    simp only
    exact Or.inl hls
  | some m =>
    simp only
    by_cases hsk : today + get_schedule_period habit.frequency ≤ m / minutesPerDay
    · rw [if_pos hsk]
      exact Or.inr ⟨m, hls, Or.inl hsk⟩
    · rw [if_neg hsk]
      push_neg at hsk
      rcases walk_shape habit (today + get_schedule_period habit.frequency - m / minutesPerDay)
        (m / minutesPerDay + 1) db with ⟨extra, hshape, -⟩
      rcases lastStart?_append_ge habit db extra m hls with ⟨m', hm', hle⟩
      right
      refine ⟨m', by rw [hshape]; exact hm', Or.inr ?_⟩
      intro d hd1 hd2
      have hdiv : m / minutesPerDay ≤ m' / minutesPerDay := Nat.div_le_div_right hle
      have hlt : m / minutesPerDay < d := by omega
      have hj : d - (m / minutesPerDay + 1) <
          today + get_schedule_period habit.frequency - m / minutesPerDay := by omega
      have := walk_covers habit
        (today + get_schedule_period habit.frequency - m / minutesPerDay)
        (m / minutesPerDay + 1) db (d - (m / minutesPerDay + 1)) hj
      have harith : m / minutesPerDay + 1 + (d - (m / minutesPerDay + 1)) = d := by omega
      rwa [harith] at this

/-- Helper: `Ready` is preserved by any other habit's extension. -/
theorem Ready_preserved (habit g : Habit) (db : List CalendarEvent) (today : Nat)
    (h : Ready habit db today) :
    Ready habit ((_extend_habit_schedule g db today).1) today := by
  rcases h with hnone | ⟨m, hm, hcase⟩
  · by_cases hid : g.id = habit.id
    · have hgnone : lastStart? g db = none := by
        rw [lastStart?_congr g habit db hid]; exact hnone
      rw [_extend_habit_schedule, hgnone]
      exact Or.inl hnone
    · rcases extend_shape g db today with ⟨extra, hshape, hids⟩
      left
      rw [hshape, lastStart?_eq_none_iff, habitStarts_append,
        (lastStart?_eq_none_iff habit db).mp hnone]
      have : habitStarts habit extra = [] := by
        rw [habitStarts, List.filter_eq_nil_iff.mpr, List.map_nil]
        intro e he
        simp only [beq_iff_eq]
        rw [hids e he]
        exact hid
      rw [this]
      rfl
  · rcases extend_shape g db today with ⟨extra, hshape, -⟩
    rcases lastStart?_append_ge habit db extra m hm with ⟨m', hm', hle⟩
    right
    refine ⟨m', by rw [hshape]; exact hm', ?_⟩
    have hdiv : m / minutesPerDay ≤ m' / minutesPerDay := Nat.div_le_div_right hle
    rcases hcase with hskip | hcov
    · exact Or.inl (le_trans hskip hdiv)
    · right
      intro d hd1 hd2
      rw [hshape]
      exact Covered_append_mono habit db extra d (hcov d (by omega) hd2)

/-- Helper: after one pass of the maintenance fold, every habit in the
list is `Ready` (and habits already `Ready` stay so). -/
theorem fold_extend_ready (today : Nat) : ∀ (L : List Habit) (db : List CalendarEvent)
    (k : Nat),
    (∀ h0, Ready h0 db today →
      Ready h0 (L.foldl (fun acc h =>
        let r := _extend_habit_schedule h acc.1 today
        (r.1, acc.2 + r.2)) (db, k)).1 today) ∧
    (∀ h0 ∈ L, Ready h0 (L.foldl (fun acc h =>
        let r := _extend_habit_schedule h acc.1 today
        (r.1, acc.2 + r.2)) (db, k)).1 today) := by
  intro L
  induction L with
  | nil => intro db k; exact ⟨fun h0 h => h, fun h0 h => absurd h (List.not_mem_nil h0)⟩
  | cons g L ih =>
    intro db k
    simp only [List.foldl_cons]
    constructor
    · intro h0 h
      exact (ih _ _).1 h0 (Ready_preserved h0 g db today h)
    · intro h0 hmem
      rcases List.mem_cons.mp hmem with rfl | hmem
      · exact (ih _ _).1 h0 (Ready_establish h0 db today)
      · exact (ih _ _).2 h0 hmem

/-- Helper: the maintenance fold over a list of `Ready` habits is the
identity. -/
theorem fold_ready_zero (today : Nat) : ∀ (L : List Habit) (db : List CalendarEvent)
    (k : Nat), (∀ h0 ∈ L, Ready h0 db today) →
    L.foldl (fun acc h =>
      let r := _extend_habit_schedule h acc.1 today
      (r.1, acc.2 + r.2)) (db, k) = (db, k) := by
  intro L
  induction L with
  | nil => intro db k _; rfl
  | cons g L ih =>
    intro db k hready
    simp only [List.foldl_cons]
    rw [Ready_extend g db today (hready g (List.mem_cons_self _ _))]
    simpa using ih db k fun h0 h => hready h0 (List.mem_cons_of_mem _ h)

end Maintain

/-- C9: the rolling schedule maintainer is idempotent.  Running
`maintain_habit_schedules` a second time over the same habits, the event
store produced by the first run and the same day adds zero new
CalendarEvents and leaves the store unchanged. -/
theorem maintain_habit_schedules_idempotent (habits : List Habit)
    (db : List Maintain.CalendarEvent) (today : Nat) :
    Maintain.maintain_habit_schedules habits
        (Maintain.maintain_habit_schedules habits db today).1 today =
      ((Maintain.maintain_habit_schedules habits db today).1, 0) := by
  unfold Maintain.maintain_habit_schedules
  apply Maintain.fold_ready_zero
  intro h0 hh0
  exact (Maintain.fold_extend_ready today _ db 0).2 h0 hh0

end App
